import Mathlib

/-!
Verification development for the LoRAFactory logging server
(`src/log_server.py`), a single-file HTTP endpoint that accepts JSON log
events on POST `/log` and appends one formatted line per accepted event to
a date-stamped log file.

Shallow embedding notes (the Python source is the authority):
* Strings are modelled as `List Char` (Python strings are sequences of
  code points); the JSON parse step (`json.loads`) is an external
  collaborator, so a request carries its parse result (`Option Json`).
* JSON numbers are modelled as integers (the spec's `timestamp` is an
  integer of epoch milliseconds); `datetime.fromtimestamp(ms / 1000)` is
  modelled with exact integer arithmetic on microseconds, which is the
  idealized (float-free) meaning of that expression.
* The local timezone is modelled as a fixed UTC offset in seconds
  (`Config.tzOffsetSec`); DST transitions are not modelled.
* `datetime` rejects instants outside years 1..9999; the model carries
  the same range check.
-/

namespace LogServer

/-! ### Characters and decimal digit rendering -/

/-- Newline character (code point 10). -/
def nl : Char := Char.ofNat 10

/-- Backslash character (code point 92). -/
def bsl : Char := Char.ofNat 92

/-- Double-quote character (code point 34). -/
def dq : Char := Char.ofNat 34

/-- Single-quote character (code point 39). -/
def sq : Char := Char.ofNat 39

/-- Opening brace character (code point 123). -/
def obr : Char := Char.ofNat 123

/-- Closing brace character (code point 125). -/
def cbr : Char := Char.ofNat 125

/-- The decimal digit character for `n < 10`. -/
def digitChar : Nat → Char
  | 0 => '0' | 1 => '1' | 2 => '2' | 3 => '3' | 4 => '4'
  | 5 => '5' | 6 => '6' | 7 => '7' | 8 => '8' | 9 => '9'
  | _ => '*'

/-- Decimal digits of a natural number, most significant first, computed
with explicit fuel so that the definition is structural (hence evaluable
by `decide`).  Fuel `n + 1` always suffices since the argument strictly
decreases under division by 10. -/
def decDigitsGo : Nat → Nat → List Char
  | 0, _ => []
  | fuel + 1, n =>
    if n < 10 then [digitChar n]
    else decDigitsGo fuel (n / 10) ++ [digitChar (n % 10)]

/-- Decimal rendering of a natural number (Python's `str` on `int ≥ 0`). -/
def decDigits (n : Nat) : List Char := decDigitsGo (n + 1) n

/-- Decimal rendering of an integer (Python's `str` on `int`). -/
def intToDec (n : Int) : List Char :=
  if n < 0 then '-' :: decDigits n.natAbs else decDigits n.toNat

/-- Zero-padded decimal rendering to width `w` (as in `strftime`'s
`%Y`/`%m`/`%d`/`%H`/`%M`/`%S`/`%f` fields). -/
def padNumL (w n : Nat) : List Char :=
  List.replicate (w - (decDigits n).length) '0' ++ decDigits n

theorem decDigitsGo_succ (f n : Nat) :
    decDigitsGo (f + 1) n =
      if n < 10 then [digitChar n]
      else decDigitsGo f (n / 10) ++ [digitChar (n % 10)] := rfl

theorem decDigitsGo_congr : ∀ {f g n : Nat}, n < f → n < g →
    decDigitsGo f n = decDigitsGo g n := by
  intro f g n
  induction n using Nat.strong_induction_on generalizing f g with
  | _ n ih =>
    intro hf hg
    match f, g with
    | f' + 1, g' + 1 =>
      rw [decDigitsGo_succ, decDigitsGo_succ]
      by_cases h10 : n < 10
      · simp [h10]
      · rw [if_neg h10, if_neg h10,
            show decDigitsGo f' (n / 10) = decDigitsGo g' (n / 10) from
              ih (n / 10) (Nat.div_lt_self (by omega) (by omega)) (by omega) (by omega)]

theorem decDigits_lt {n : Nat} (h : n < 10) : decDigits n = [digitChar n] := by
  simp [decDigits, decDigitsGo_succ, h]

theorem decDigits_ge {n : Nat} (h : 10 ≤ n) :
    decDigits n = decDigits (n / 10) ++ [digitChar (n % 10)] := by
  show decDigitsGo (n + 1) n = _
  rw [decDigitsGo_succ, if_neg (by omega : ¬ n < 10)]
  rw [show decDigitsGo n (n / 10) = decDigits (n / 10) from
        decDigitsGo_congr (by omega) (by omega)]

/-- Appending one digit: `decDigits (10 * a + b) = decDigits a ++ [digit b]`
for `a > 0`, `b < 10`. -/
theorem decDigits_mul_add {a b : Nat} (ha : 0 < a) (hb : b < 10) :
    decDigits (10 * a + b) = decDigits a ++ [digitChar b] := by
  have h1 : (10 * a + b) / 10 = a := by omega
  have h2 : (10 * a + b) % 10 = b := by omega
  rw [decDigits_ge (by omega), h1, h2]

theorem decDigits_length_le : ∀ (k n : Nat), n < 10 ^ (k + 1) →
    (decDigits n).length ≤ k + 1 := by
  intro k
  induction k with
  | zero =>
    intro n hn
    rw [decDigits_lt (by simpa using hn)]
    simp
  | succ k ih =>
    intro n hn
    by_cases h10 : n < 10
    · rw [decDigits_lt h10]; simp
    · rw [decDigits_ge (by omega)]
      have hdiv : n / 10 < 10 ^ (k + 1) := by
        rw [Nat.div_lt_iff_lt_mul (by omega)]
        calc n < 10 ^ (k + 1 + 1) := hn
          _ = 10 ^ (k + 1) * 10 := by ring
      have := ih (n / 10) hdiv
      simp only [List.length_append, List.length_cons, List.length_nil]
      omega

/-- Explicit three-character form of `padNumL 3` (for `b < 1000`). -/
theorem padNumL3_explicit {b : Nat} (hb : b < 1000) :
    padNumL 3 b = [digitChar (b / 100), digitChar (b / 10 % 10), digitChar (b % 10)] := by
  by_cases h1 : b < 10
  · have e1 : b / 100 = 0 := by omega
    have e2 : b / 10 % 10 = 0 := by omega
    have e3 : b % 10 = b := by omega
    rw [padNumL, decDigits_lt h1, e1, e2, e3]
    simp [List.replicate, digitChar]
  · by_cases h2 : b < 100
    · have hq : b / 10 < 10 := by omega
      have hsplit : b = 10 * (b / 10) + b % 10 := by omega
      have hd : decDigits b = decDigits (b / 10) ++ [digitChar (b % 10)] := by
        conv_lhs => rw [hsplit]
        exact decDigits_mul_add (by omega) (by omega)
      have e1 : b / 100 = 0 := by omega
      have e2 : b / 10 % 10 = b / 10 := by omega
      rw [padNumL, hd, decDigits_lt hq, e1, e2]
      simp [List.replicate, digitChar]
    · have hq : b / 100 < 10 := by omega
      have hsplit : b = 10 * (b / 10) + b % 10 := by omega
      have hsplit2 : b / 10 = 10 * (b / 100) + b / 10 % 10 := by omega
      have hd : decDigits b = decDigits (b / 10) ++ [digitChar (b % 10)] := by
        conv_lhs => rw [hsplit]
        exact decDigits_mul_add (by omega) (by omega)
      have hd2 : decDigits (b / 10) = decDigits (b / 100) ++ [digitChar (b / 10 % 10)] := by
        conv_lhs => rw [hsplit2]
        exact decDigits_mul_add (by omega) (by omega)
      rw [padNumL, hd, hd2, decDigits_lt hq]
      simp [List.replicate]

/-- `padNumL 6` splits into the two `padNumL 3` halves (for `u < 10^6`). -/
theorem padNumL6_split {u : Nat} (hu : u < 1000000) :
    padNumL 6 u = padNumL 3 (u / 1000) ++ padNumL 3 (u % 1000) := by
  by_cases ha : u / 1000 = 0
  · have hu3 : u < 1000 := by omega
    have hmod : u % 1000 = u := by omega
    rw [ha, hmod]
    have hlen : (decDigits u).length ≤ 3 := decDigits_length_le 2 u (by omega)
    have h30 : padNumL 3 0 = List.replicate 3 '0' := by decide
    rw [h30]
    simp only [padNumL]
    have h63 : 6 - (decDigits u).length = 3 + (3 - (decDigits u).length) := by omega
    rw [h63, List.replicate_add, List.append_assoc]
  · set a := u / 1000 with hadef
    set b := u % 1000 with hbdef
    have hb : b < 1000 := by omega
    have ha3 : a < 1000 := by omega
    have hsplit : u = 10 * (10 * (10 * a + b / 100) + b / 10 % 10) + b % 10 := by omega
    have hd : decDigits u
        = decDigits a ++ [digitChar (b / 100), digitChar (b / 10 % 10), digitChar (b % 10)] := by
      conv_lhs => rw [hsplit]
      rw [decDigits_mul_add (by omega) (by omega),
          decDigits_mul_add (by omega) (by omega),
          decDigits_mul_add (by omega) (by omega)]
      simp
    have hlen : (decDigits a).length ≤ 3 := decDigits_length_le 2 a (by omega)
    have hlenu : (decDigits u).length = (decDigits a).length + 3 := by
      rw [hd]; simp
    rw [padNumL, hlenu, padNumL3_explicit hb, padNumL, hd]
    have h63 : 6 - ((decDigits a).length + 3) = 3 - (decDigits a).length := by omega
    rw [h63]
    simp [List.append_assoc]

/-- The microsecond field of an exact millisecond value, truncated to
three characters, is the millisecond field: `padNumL 6 (k * 1000)` is
`padNumL 3 k` followed by `"000"`. -/
theorem padNumL_thousand {k : Nat} (hk : k < 1000) :
    padNumL 6 (k * 1000) = padNumL 3 k ++ ['0', '0', '0'] := by
  have h1 : k * 1000 / 1000 = k := by omega
  have h2 : k * 1000 % 1000 = 0 := by omega
  rw [padNumL6_split (by omega), h1, h2]
  have : padNumL 3 0 = ['0', '0', '0'] := by decide
  rw [this]

theorem take_length_append (xs ys : List Char) : (xs ++ ys).take xs.length = xs := by
  induction xs with
  | nil => rfl
  | cons a l ih => simp [List.take_succ_cons, ih]

/-- Python's `s[:-3]` on strings: drop the last three characters. -/
def pyDropLast3 (l : List Char) : List Char := l.take (l.length - 3)

theorem pyDropLast3_append {xs ys : List Char} (h : ys.length = 3) :
    pyDropLast3 (xs ++ ys) = xs := by
  rw [pyDropLast3, List.length_append, h, Nat.add_sub_cancel, take_length_append]

theorem digitChar_ne_nl : ∀ k, digitChar k ≠ nl := by
  intro k
  match k with
  | 0 => decide
  | 1 => decide
  | 2 => decide
  | 3 => decide
  | 4 => decide
  | 5 => decide
  | 6 => decide
  | 7 => decide
  | 8 => decide
  | 9 => decide
  | k + 10 => show '*' ≠ nl; decide

theorem nl_not_mem_decDigitsGo : ∀ (f n : Nat), nl ∉ decDigitsGo f n := by
  intro f
  induction f with
  | zero => intro n; simp [decDigitsGo]
  | succ f ih =>
    intro n
    by_cases h : n < 10
    · simp only [decDigitsGo, if_pos h, List.mem_singleton]
      exact fun hc => digitChar_ne_nl n hc.symm
    · simp only [decDigitsGo, if_neg h, List.mem_append, List.mem_singleton]
      rintro (hc | hc)
      · exact ih (n / 10) hc
      · exact digitChar_ne_nl (n % 10) hc.symm

theorem nl_not_mem_decDigits (n : Nat) : nl ∉ decDigits n :=
  nl_not_mem_decDigitsGo (n + 1) n

theorem nl_not_mem_padNumL (w n : Nat) : nl ∉ padNumL w n := by
  simp only [padNumL, List.mem_append]
  rintro (h | h)
  · have := List.eq_of_mem_replicate h
    simp [nl] at this
  · exact nl_not_mem_decDigits n h

/-! ### JSON values and Python serialization

`json.loads` is a process-boundary collaborator (per the design, the JSON
encode/decode facility is external), so parsed request bodies are
modelled as `Json` values directly.  JSON numbers are restricted to
integers, which covers the integer `timestamp` data model; `json.loads`
parses objects into Python dicts, whose keys are unique (a duplicated key
in the input keeps only one entry), so theorems that quantify over object
bodies carry a `Nodup` hypothesis on the key list. -/

inductive Json where
  | null : Json
  | bool (b : Bool) : Json
  | num (n : Int) : Json
  | str (s : String) : Json
  | arr (elems : List Json) : Json
  | obj (members : List (String × Json)) : Json

/-- Lowercase hexadecimal digit characters `a`..`f`. -/
def smallAlpha : Nat → Char
  | 0 => 'a' | 1 => 'b' | 2 => 'c' | 3 => 'd' | 4 => 'e' | _ => 'f'

/-- Hexadecimal digit character (lowercase, as emitted by `json.dumps`). -/
def hexDigitChar (n : Nat) : Char :=
  if n < 10 then digitChar n else smallAlpha (n - 10)

/-- Four-digit hexadecimal rendering, used by `\uXXXX` escapes. -/
def hex4 (n : Nat) : List Char :=
  [hexDigitChar (n / 4096 % 16), hexDigitChar (n / 256 % 16),
   hexDigitChar (n / 16 % 16), hexDigitChar (n % 16)]

/-- The `\uXXXX` escape of a code point (as a surrogate pair above
`U+FFFF`), as emitted by `json.dumps` with its default `ensure_ascii`. -/
def uEsc (v : Nat) : List Char :=
  if v < 65536 then bsl :: 'u' :: hex4 v
  else
    bsl :: 'u' :: hex4 (55296 + (v - 65536) / 1024) ++
      bsl :: 'u' :: hex4 (56320 + (v - 65536) % 1024)

/-- Escaping of one character inside a JSON string literal, following
`json.dumps` defaults: `"`, backslash and control characters get
two-character escapes, any character outside printable ASCII
(`0x20`..`0x7e`) gets a `\uXXXX` escape (`ensure_ascii=True`). -/
def escChar (c : Char) : List Char :=
  if c = dq then [bsl, dq]
  else if c = bsl then [bsl, bsl]
  else if c = nl then [bsl, 'n']
  else if c.toNat = 13 then [bsl, 'r']
  else if c.toNat = 9 then [bsl, 't']
  else if c.toNat = 8 then [bsl, 'b']
  else if c.toNat = 12 then [bsl, 'f']
  else if c.toNat < 32 ∨ 126 < c.toNat then uEsc c.toNat
  else [c]

/-- Concatenation of a list of character lists. -/
def concatAll : List (List Char) → List Char
  | [] => []
  | x :: r => x ++ concatAll r

/-- The escaped body of a JSON string literal. -/
def jsonEscape (s : String) : List Char := concatAll (s.data.map escChar)

/-- The `", "` item separator (the `json.dumps` default, also used by
Python's container `repr`). -/
def commaSp : List Char := [',', ' ']

mutual

/-- `json.dumps` with default arguments (separators `", "` and `": "`,
`ensure_ascii=True`): the re-serialization used in the log line. -/
def dumps : Json → List Char
  | Json.null => ['n', 'u', 'l', 'l']
  | Json.bool true => ['t', 'r', 'u', 'e']
  | Json.bool false => ['f', 'a', 'l', 's', 'e']
  | Json.num n => intToDec n
  | Json.str s => dq :: jsonEscape s ++ [dq]
  | Json.arr xs => '[' :: dumpsItems xs ++ [']']
  | Json.obj ms => obr :: dumpsMembers ms ++ [cbr]

/-- Array elements of `json.dumps` output, `", "`-separated. -/
def dumpsItems : List Json → List Char
  | [] => []
  | [x] => dumps x
  | x :: y :: rest => dumps x ++ commaSp ++ dumpsItems (y :: rest)

/-- Object members of `json.dumps` output: `"key": value`,
`", "`-separated. -/
def dumpsMembers : List (String × Json) → List Char
  | [] => []
  | [m] => dq :: jsonEscape m.1 ++ dq :: ':' :: ' ' :: dumps m.2
  | m :: m2 :: rest =>
    (dq :: jsonEscape m.1 ++ dq :: ':' :: ' ' :: dumps m.2) ++ commaSp ++
      dumpsMembers (m2 :: rest)

end

/-- Python `repr` of one character inside a quoted string repr: escape
backslash, the quote character, and the common control characters;
other non-printable ASCII becomes `\xXX`.  (Non-printable non-ASCII
escaping is not modelled; no claim depends on it.) -/
def reprEscChar (q c : Char) : List Char :=
  if c = bsl then [bsl, bsl]
  else if c = q then [bsl, q]
  else if c = nl then [bsl, 'n']
  else if c.toNat = 13 then [bsl, 'r']
  else if c.toNat = 9 then [bsl, 't']
  else if c.toNat < 32 ∨ c.toNat = 127 then
    bsl :: 'x' :: [hexDigitChar (c.toNat / 16 % 16), hexDigitChar (c.toNat % 16)]
  else [c]

/-- Python `repr` of a string: single-quoted, unless the string contains
a single quote and no double quote. -/
def strRepr (s : String) : List Char :=
  let q := if sq ∈ s.data ∧ ¬ dq ∈ s.data then dq else sq
  q :: concatAll (s.data.map (reprEscChar q)) ++ [q]

mutual

/-- Python `repr` of a value parsed from JSON: `None`/`True`/`False`,
decimal integers, quoted strings, and bracketed containers with `", "`
separators. -/
def pyRepr : Json → List Char
  | Json.null => ['N', 'o', 'n', 'e']
  | Json.bool true => ['T', 'r', 'u', 'e']
  | Json.bool false => ['F', 'a', 'l', 's', 'e']
  | Json.num n => intToDec n
  | Json.str s => strRepr s
  | Json.arr xs => '[' :: pyReprItems xs ++ [']']
  | Json.obj ms => obr :: pyReprMembers ms ++ [cbr]

/-- List elements of a Python `repr`, `", "`-separated. -/
def pyReprItems : List Json → List Char
  | [] => []
  | [x] => pyRepr x
  | x :: y :: rest => pyRepr x ++ commaSp ++ pyReprItems (y :: rest)

/-- Dict members of a Python `repr`: `'key': value`, `", "`-separated. -/
def pyReprMembers : List (String × Json) → List Char
  | [] => []
  | [m] => strRepr m.1 ++ ':' :: ' ' :: pyRepr m.2
  | m :: m2 :: rest =>
    (strRepr m.1 ++ ':' :: ' ' :: pyRepr m.2) ++ commaSp ++ pyReprMembers (m2 :: rest)

end

/-- Python `str` of a value parsed from JSON, as applied by the f-string
interpolation `f"... [{log_type}] ..."`: a `str` is rendered verbatim
(unquoted, unescaped); every other value renders as its `repr`. -/
def pyStr : Json → List Char
  | Json.str s => s.data
  | j => pyRepr j

/-- The numeric interpretation used by `log_entry.get('timestamp', 0) / 1000`:
Python division accepts `int` and `bool` (`True`/`False` divide as `1`/`0`);
`None`, strings, lists and dicts raise `TypeError`. -/
def pyNum : Json → Option Int
  | Json.num n => some n
  | Json.bool b => some (if b then 1 else 0)
  | _ => none

/-- First-match lookup in an object's member list (Python dict lookup;
dicts parsed by `json.loads` have unique keys). -/
def lookupKey : List (String × Json) → String → Option Json
  | [], _ => none
  | (k, v) :: rest, key => if k = key then some v else lookupKey rest key

/-! ### The serializer never emits a raw newline
(JSON string escaping turns newlines into the two characters `\` `n`). -/

theorem smallAlpha_ne_nl : ∀ k, smallAlpha k ≠ nl := by
  intro k
  match k with
  | 0 => decide
  | 1 => decide
  | 2 => decide
  | 3 => decide
  | 4 => decide
  | k + 5 => show 'f' ≠ nl; decide

theorem hexDigitChar_ne_nl (n : Nat) : hexDigitChar n ≠ nl := by
  unfold hexDigitChar
  by_cases h : n < 10
  · rw [if_pos h]; exact digitChar_ne_nl n
  · rw [if_neg h]; exact smallAlpha_ne_nl (n - 10)

theorem nl_not_mem_hex4 (n : Nat) : nl ∉ hex4 n := by
  intro h
  simp only [hex4, List.mem_cons, List.not_mem_nil, or_false] at h
  rcases h with h | h | h | h <;> exact hexDigitChar_ne_nl _ h.symm

theorem nl_not_mem_uEsc (v : Nat) : nl ∉ uEsc v := by
  unfold uEsc
  by_cases h : v < 65536
  · rw [if_pos h]
    intro hm
    rcases List.mem_cons.mp hm with h1 | h1
    · exact (by decide : nl ≠ bsl) h1
    · rcases List.mem_cons.mp h1 with h2 | h2
      · exact (by decide : nl ≠ 'u') h2
      · exact nl_not_mem_hex4 _ h2
  · rw [if_neg h]
    intro hm
    rcases List.mem_cons.mp hm with h1 | h1
    · exact (by decide : nl ≠ bsl) h1
    · rcases List.mem_cons.mp h1 with h2 | h2
      · exact (by decide : nl ≠ 'u') h2
      · rcases List.mem_append.mp h2 with h3 | h3
        · exact nl_not_mem_hex4 _ h3
        · rcases List.mem_cons.mp h3 with h4 | h4
          · exact (by decide : nl ≠ bsl) h4
          · rcases List.mem_cons.mp h4 with h5 | h5
            · exact (by decide : nl ≠ 'u') h5
            · exact nl_not_mem_hex4 _ h5

theorem nl_not_mem_escChar (c : Char) : nl ∉ escChar c := by
  unfold escChar
  by_cases h1 : c = dq
  · rw [if_pos h1]; decide
  · rw [if_neg h1]
    by_cases h2 : c = bsl
    · rw [if_pos h2]; decide
    · rw [if_neg h2]
      by_cases h3 : c = nl
      · rw [if_pos h3]; decide
      · rw [if_neg h3]
        by_cases h4 : c.toNat = 13
        · rw [if_pos h4]; decide
        · rw [if_neg h4]
          by_cases h5 : c.toNat = 9
          · rw [if_pos h5]; decide
          · rw [if_neg h5]
            by_cases h6 : c.toNat = 8
            · rw [if_pos h6]; decide
            · rw [if_neg h6]
              by_cases h7 : c.toNat = 12
              · rw [if_pos h7]; decide
              · rw [if_neg h7]
                by_cases h8 : c.toNat < 32 ∨ 126 < c.toNat
                · rw [if_pos h8]; exact nl_not_mem_uEsc c.toNat
                · rw [if_neg h8]
                  intro hm
                  rcases List.mem_singleton.mp hm with rfl
                  exact h8 (Or.inl (by decide))

theorem mem_concatAll {c : Char} {L : List (List Char)} :
    c ∈ concatAll L → ∃ l ∈ L, c ∈ l := by
  induction L with
  | nil => simp [concatAll]
  | cons x r ih =>
    simp only [concatAll, List.mem_append]
    rintro (h | h)
    · exact ⟨x, by simp, h⟩
    · obtain ⟨l, hl, hc⟩ := ih h
      exact ⟨l, by simp [hl], hc⟩

theorem nl_not_mem_jsonEscape (s : String) : nl ∉ jsonEscape s := by
  intro hm
  obtain ⟨l, hl, hc⟩ := mem_concatAll hm
  obtain ⟨ch, _, rfl⟩ := List.mem_map.mp hl
  exact nl_not_mem_escChar ch hc

theorem nl_not_mem_intToDec (n : Int) : nl ∉ intToDec n := by
  unfold intToDec
  split
  · intro hm
    rcases List.mem_cons.mp hm with h | h
    · exact (by decide : nl ≠ '-') h
    · exact nl_not_mem_decDigits _ h
  · exact nl_not_mem_decDigits _

/-- One `"key": value` chunk of a serialized object member. -/
theorem nl_not_mem_memberChunk {k : String} {v : List Char} (hv : nl ∉ v) :
    nl ∉ dq :: jsonEscape k ++ dq :: ':' :: ' ' :: v := by
  intro hm
  rcases List.mem_cons.mp hm with h | h
  · exact (by decide : nl ≠ dq) h
  · rcases List.mem_append.mp h with h | h
    · exact nl_not_mem_jsonEscape k h
    · rcases List.mem_cons.mp h with h | h
      · exact (by decide : nl ≠ dq) h
      · rcases List.mem_cons.mp h with h | h
        · exact (by decide : nl ≠ ':') h
        · rcases List.mem_cons.mp h with h | h
          · exact (by decide : nl ≠ ' ') h
          · exact hv h

mutual

theorem nl_not_mem_dumps : ∀ j, nl ∉ dumps j
  | Json.null => by decide
  | Json.bool true => by decide
  | Json.bool false => by decide
  | Json.num n => nl_not_mem_intToDec n
  | Json.str s => by
    intro hm
    rcases List.mem_cons.mp hm with h | h
    · exact (by decide : nl ≠ dq) h
    · rcases List.mem_append.mp h with h | h
      · exact nl_not_mem_jsonEscape s h
      · exact (by decide : nl ∉ [dq]) h
  | Json.arr xs => by
    intro hm
    rcases List.mem_cons.mp hm with h | h
    · exact (by decide : nl ≠ '[') h
    · rcases List.mem_append.mp h with h | h
      · exact nl_not_mem_dumpsItems xs h
      · exact (by decide : nl ∉ [']']) h
  | Json.obj ms => by
    intro hm
    rcases List.mem_cons.mp hm with h | h
    · exact (by decide : nl ≠ obr) h
    · rcases List.mem_append.mp h with h | h
      · exact nl_not_mem_dumpsMembers ms h
      · exact (by decide : nl ∉ [cbr]) h

theorem nl_not_mem_dumpsItems : ∀ xs, nl ∉ dumpsItems xs
  | [] => by decide
  | [x] => nl_not_mem_dumps x
  | x :: y :: rest => by
    intro hm
    rcases List.mem_append.mp hm with h | h
    · rcases List.mem_append.mp h with h | h
      · exact nl_not_mem_dumps x h
      · exact (by decide : nl ∉ commaSp) h
    · exact nl_not_mem_dumpsItems (y :: rest) h

theorem nl_not_mem_dumpsMembers : ∀ ms, nl ∉ dumpsMembers ms
  | [] => by decide
  | [m] => nl_not_mem_memberChunk (nl_not_mem_dumps m.2)
  | m :: m2 :: rest => by
    intro hm
    rcases List.mem_append.mp hm with h | h
    · rcases List.mem_append.mp h with h | h
      · exact nl_not_mem_memberChunk (nl_not_mem_dumps m.2) h
      · exact (by decide : nl ∉ commaSp) h
    · exact nl_not_mem_dumpsMembers (m2 :: rest) h

end

/-! ### Newline counting (for "the file gains exactly one new line") -/

/-- Number of occurrences of a character in a character list. -/
def countChar (c : Char) : List Char → Nat
  | [] => 0
  | x :: r => (if x = c then 1 else 0) + countChar c r

theorem countChar_append (c : Char) (xs ys : List Char) :
    countChar c (xs ++ ys) = countChar c xs + countChar c ys := by
  induction xs with
  | nil => simp [countChar]
  | cons x r ih => simp [countChar, ih]; omega

theorem countChar_eq_zero {c : Char} {l : List Char} (h : c ∉ l) :
    countChar c l = 0 := by
  induction l with
  | nil => rfl
  | cons x r ih =>
    have hx : x ≠ c := fun hxc => h (hxc ▸ List.mem_cons_self x r)
    have hr : c ∉ r := fun hcr => h (List.mem_cons_of_mem x hcr)
    simp [countChar, if_neg hx, ih hr]

/-! ### The display timestamp

The source computes (line 29 of `log_server.py`)
`datetime.fromtimestamp(log_entry.get('timestamp', 0) / 1000)
   .strftime('%Y-%m-%d %H:%M:%S.%f')[:-3]`.
The division by 1000 is modelled exactly (integer milliseconds to
microseconds); `fromtimestamp` converts to local wall-clock time (a fixed
UTC offset here) and fails outside `datetime`'s year range 1..9999;
`%f` is the six-digit microsecond field and `[:-3]` truncates it to
milliseconds. -/

/-- Civil (proleptic Gregorian) date from days since the Unix epoch —
the standard calendar conversion performed by the OS `localtime` used by
`datetime.fromtimestamp`. -/
def civilFromDays (z0 : Int) : Int × Nat × Nat :=
  let z := z0 + 719468
  let era : Int := z / 146097
  let doe : Nat := (z % 146097).toNat
  let yoe : Nat := (doe - doe / 1460 + doe / 36524 - doe / 146096) / 365
  let y : Int := era * 400 + yoe
  let doy : Nat := doe - (365 * yoe + yoe / 4 - yoe / 100)
  let mp : Nat := (5 * doy + 2) / 153
  let d : Nat := doy - (153 * mp + 2) / 5 + 1
  let m : Nat := if mp < 10 then mp + 3 else mp - 9
  (if m ≤ 2 then y + 1 else y, m, d)

/-- `strftime('%Y-%m-%d %H:%M:%S')` of a civil date and a
seconds-of-day value. -/
def dtChars (y mo d sod : Nat) : List Char :=
  padNumL 4 y ++ '-' :: padNumL 2 mo ++ '-' :: padNumL 2 d ++ ' ' ::
    padNumL 2 (sod / 3600) ++ ':' :: padNumL 2 (sod % 3600 / 60) ++ ':' ::
      padNumL 2 (sod % 60)

/-- The `%Y-%m-%d %H:%M:%S` rendering of an epoch-seconds value already
shifted into local time. -/
def localCivilChars (secs : Int) : List Char :=
  dtChars (civilFromDays (secs / 86400)).1.toNat (civilFromDays (secs / 86400)).2.1
    (civilFromDays (secs / 86400)).2.2 (secs % 86400).toNat

/-- The civil year of a local epoch-seconds value (for `datetime`'s
1..9999 range check). -/
def localYear (secs : Int) : Int := (civilFromDays (secs / 86400)).1

/-- The whole display-timestamp pipeline of source line 29, for a
timestamp of `ms` epoch milliseconds under local UTC offset `tz` seconds:
`fromtimestamp` + `strftime('%Y-%m-%d %H:%M:%S.%f')` + `[:-3]`.
`Except.error` models the `OverflowError`/`ValueError` raised for
instants outside `datetime`'s representable years. -/
def fromtimestampStr (tz ms : Int) : Except Unit (List Char) :=
  if localYear ((ms * 1000 + tz * 1000000) / 1000000) < 1 ∨
      9999 < localYear ((ms * 1000 + tz * 1000000) / 1000000) then Except.error ()
  else
    Except.ok (pyDropLast3 (localCivilChars ((ms * 1000 + tz * 1000000) / 1000000) ++
      '.' :: padNumL 6 ((ms * 1000 + tz * 1000000) % 1000000).toNat))

/-- The display timestamp as the spec words it: interpret the numeric
`timestamp` field as epoch milliseconds, convert to local wall-clock
time, and format as `YYYY-MM-DD HH:MM:SS.mmm` with the millisecond field
truncated (not rounded). -/
def specDisplayTimestamp (tz ms : Int) : List Char :=
  localCivilChars ((ms + tz * 1000) / 1000) ++
    '.' :: padNumL 3 ((ms + tz * 1000) % 1000).toNat

/-- The epoch instant (timestamp 0) rendered in local wall-clock time,
with fractional part `.000`. -/
def epochLocalDisplay (tz : Int) : List Char :=
  localCivilChars tz ++ ['.', '0', '0', '0']

theorem not_mem_app {c : Char} {xs ys : List Char} (hx : c ∉ xs) (hy : c ∉ ys) :
    c ∉ xs ++ ys :=
  fun hm => (List.mem_append.mp hm).elim hx hy

theorem not_mem_cns {c d : Char} {l : List Char} (hd : c ≠ d) (hl : c ∉ l) :
    c ∉ d :: l :=
  fun hm => (List.mem_cons.mp hm).elim hd hl

theorem nl_not_mem_dtChars (y mo d sod : Nat) : nl ∉ dtChars y mo d sod := by
  unfold dtChars
  exact not_mem_app (not_mem_app (not_mem_app (not_mem_app (not_mem_app
      (nl_not_mem_padNumL 4 y)
      (not_mem_cns (by decide) (nl_not_mem_padNumL 2 mo)))
      (not_mem_cns (by decide) (nl_not_mem_padNumL 2 d)))
      (not_mem_cns (by decide) (nl_not_mem_padNumL 2 (sod / 3600))))
      (not_mem_cns (by decide) (nl_not_mem_padNumL 2 (sod % 3600 / 60))))
      (not_mem_cns (by decide) (nl_not_mem_padNumL 2 (sod % 60)))

theorem nl_not_mem_localCivilChars (secs : Int) : nl ∉ localCivilChars secs :=
  nl_not_mem_dtChars _ _ _ _

/-- The source's display-timestamp pipeline (exact-arithmetic model of
`fromtimestamp(ms / 1000).strftime('%Y-%m-%d %H:%M:%S.%f')[:-3]`)
produces, whenever it succeeds, exactly the spec's reading: local
wall-clock time with a truncated three-digit millisecond field. -/
theorem fromtimestampStr_spec {tz ms : Int} {s : List Char}
    (h : fromtimestampStr tz ms = Except.ok s) : s = specDisplayTimestamp tz ms := by
  unfold fromtimestampStr at h
  split at h
  · exact absurd h (by simp)
  · have hsecs : (ms * 1000 + tz * 1000000) / 1000000 = (ms + tz * 1000) / 1000 := by
      omega
    have hfrac : ((ms * 1000 + tz * 1000000) % 1000000).toNat
        = ((ms + tz * 1000) % 1000).toNat * 1000 := by omega
    have hlt : ((ms + tz * 1000) % 1000).toNat < 1000 := by omega
    rw [hsecs, hfrac, padNumL_thousand hlt] at h
    have hs := (Except.ok.injEq _ _).mp h
    rw [← hs]
    calc pyDropLast3 (localCivilChars ((ms + tz * 1000) / 1000) ++
            '.' :: (padNumL 3 ((ms + tz * 1000) % 1000).toNat ++ ['0', '0', '0']))
        = pyDropLast3 ((localCivilChars ((ms + tz * 1000) / 1000) ++
            '.' :: padNumL 3 ((ms + tz * 1000) % 1000).toNat) ++ ['0', '0', '0']) := by
          simp [List.append_assoc]
      _ = specDisplayTimestamp tz ms := pyDropLast3_append (by decide)

theorem fromtimestampStr_no_nl {tz ms : Int} {s : List Char}
    (h : fromtimestampStr tz ms = Except.ok s) : nl ∉ s := by
  unfold fromtimestampStr at h
  split at h
  · exact absurd h (by simp)
  · intro hm
    rw [← Except.ok.injEq _ _ |>.mp h] at hm
    have hsub := List.take_subset _ _ hm
    rcases List.mem_append.mp hsub with h1 | h1
    · exact nl_not_mem_localCivilChars _ h1
    · rcases List.mem_cons.mp h1 with h2 | h2
      · exact (by decide : nl ≠ '.') h2
      · exact nl_not_mem_padNumL _ _ h2

/-! ### The HTTP server

`LogHandler` subclasses `http.server.BaseHTTPRequestHandler`, which
dispatches a request to `do_<METHOD>` and answers 501 (Unsupported
method) when no such method exists; only `do_POST` and `do_OPTIONS` are
defined.  The handler reads `Content-Length` and the body *outside* its
`try`/`except`, so exceptions raised there (absent or non-integer
header, socket failure while reading) escape the handler: the stack
prints a traceback and closes the connection without sending any
response — modelled by `Outcome.crashed`.

A response is modelled as the status plus the headers and body bytes the
handler itself emits (`send_header`/`wfile.write`); the HTTP stack also
adds `Server:` and `Date:` headers to every response, and generates an
HTML explanation body for the framework 501 error, which the model
elides since no claim depends on them. -/

/-- Process-wide configuration fixed at startup: the local timezone
offset used by `datetime.fromtimestamp`, and the date captured by
`datetime.now().strftime('%Y%m%d')` when the module-level `LOG_FILE`
constant is computed (source lines 13-14). -/
structure Config where
  tzOffsetSec : Int
  startY : Nat
  startM : Nat
  startD : Nat

/-- `LOG_FILE = os.path.join("logs", f"lorafactory_{...:%Y%m%d}.log")`:
fixed for the whole process lifetime. -/
def logFileName (cfg : Config) : String :=
  String.mk ("logs/lorafactory_".data ++ padNumL 4 cfg.startY ++
    padNumL 2 cfg.startM ++ padNumL 2 cfg.startD ++ ".log".data)

/-- One HTTP request as the handler sees it.  `contentLength = none`
models an absent or non-integer `Content-Length` header (`int(...)`
raises either way); `bodyReadFails` models a socket error inside
`self.rfile.read`; `body` is the result of `json.loads` on the received
bytes (`none` when the bytes are not valid UTF-8 JSON) — the parser
itself is an external collaborator.  `nowY/nowM/nowD` are the wall-clock
date at handling time; the handler never consults them, which is what
the fixed-log-file claims quantify over. -/
structure Request where
  method : String
  path : String
  contentLength : Option Int
  bodyReadFails : Bool
  body : Option Json
  nowY : Nat
  nowM : Nat
  nowD : Nat

/-- Status, explicitly-sent headers, and explicitly-written body of a
response. -/
structure Response where
  status : Nat
  headers : List (String × String)
  body : String
deriving DecidableEq

/-- Success response of `do_POST` (source lines 37-41). -/
def ok200 : Response :=
  ⟨200, [("Access-Control-Allow-Origin", "*"), ("Content-Type", "application/json")],
    "\x7b\"status\":\"ok\"\x7d"⟩

/-- Error response of the `except` branch (source lines 45-46): bare 500,
no headers, no body. -/
def resp500 : Response := ⟨500, [], ""⟩

/-- Not-found response for POSTs to other paths (source lines 48-49). -/
def resp404 : Response := ⟨404, [], ""⟩

/-- `BaseHTTPRequestHandler`'s \"Unsupported method\" reply, sent when no
`do_<METHOD>` attribute exists (its HTML error body is elided). -/
def resp501 : Response := ⟨501, [], ""⟩

/-- CORS preflight response of `do_OPTIONS` (source lines 51-57). -/
def corsResp : Response :=
  ⟨200, [("Access-Control-Allow-Origin", "*"),
         ("Access-Control-Allow-Methods", "POST, OPTIONS"),
         ("Access-Control-Allow-Headers", "Content-Type")], ""⟩

/-- What one request produces: either a response was sent (together with
the line appended to `LOG_FILE`, if any), or an exception escaped the
handler and the connection was dropped with no response. -/
inductive Outcome where
  | responded (resp : Response) (written : Option (List Char)) : Outcome
  | crashed : Outcome
deriving DecidableEq

/-- `log_entry.get(key, default)`: raises `AttributeError` unless the
parsed value is a dict (source lines 29-30). -/
def dictGet (j : Json) (key : String) (dflt : Json) : Except Unit Json :=
  match j with
  | Json.obj ms => Except.ok ((lookupKey ms key).getD dflt)
  | _ => Except.error ()

/-- The log line `f"[{timestamp}] [{log_type}] {json.dumps(log_entry)}\n"`
(source line 34). -/
def formatLine (ts ty ser : List Char) : List Char :=
  ['['] ++ ts ++ [']', ' ', '['] ++ ty ++ [']', ' '] ++ ser ++ [nl]

/-- The body of the `try` block (source lines 25-41): parse, extract and
format the timestamp, extract the type, build the line to append.  Any
raise inside the block becomes `Except.error`; success carries the line
written to the log file. -/
def tryBlock (cfg : Config) (body : Option Json) : Except Unit (List Char) :=
  match body with
  | none => Except.error ()
  | some entry =>
    match dictGet entry "timestamp" (Json.num 0) with
    | Except.error _ => Except.error ()
    | Except.ok tsVal =>
      match pyNum tsVal with
      | none => Except.error ()
      | some ms =>
        match fromtimestampStr cfg.tzOffsetSec ms with
        | Except.error _ => Except.error ()
        | Except.ok ts =>
          match dictGet entry "type" (Json.str "UNKNOWN") with
          | Except.error _ => Except.error ()
          | Except.ok tyVal => Except.ok (formatLine ts (pyStr tyVal) (dumps entry))

/-- `do_POST` (source lines 20-49). -/
def do_POST (cfg : Config) (req : Request) : Outcome :=
  if req.path = "/log" then
    match req.contentLength with
    | none => Outcome.crashed
    | some _ =>
      if req.bodyReadFails then Outcome.crashed
      else
        match tryBlock cfg req.body with
        | Except.ok line => Outcome.responded ok200 (some line)
        | Except.error _ => Outcome.responded resp500 none
  else Outcome.responded resp404 none

/-- Method dispatch of `BaseHTTPRequestHandler.handle_one_request`: only
`do_POST` and `do_OPTIONS` exist on `LogHandler`, every other method
gets the framework's 501 reply. -/
def handleRequest (cfg : Config) (req : Request) : Outcome :=
  if req.method = "POST" then do_POST cfg req
  else if req.method = "OPTIONS" then Outcome.responded corsResp none
  else Outcome.responded resp501 none

/-- The file system visible to the server: file name to contents. -/
def Files : Type := List (String × List Char)

/-- Contents of a file (`[]` when absent, matching append-create
semantics: `open(LOG_FILE, 'a')`). -/
def lookupFile : Files → String → List Char
  | [], _ => []
  | (n, c) :: rest, name => if n = name then c else lookupFile rest name

/-- Append-mode write: extend the file's contents, creating it if
absent. -/
def appendFile : Files → String → List Char → Files
  | [], name, line => [(name, line)]
  | (n, c) :: rest, name, line =>
    if n = name then (n, c ++ line) :: rest
    else (n, c) :: appendFile rest name line

/-- Effect of one outcome on the file system: an accepted event appends
its line to the cached `LOG_FILE`; error responses and crashes write
nothing. -/
def applyOutcome (cfg : Config) (o : Outcome) (fs : Files) : Files :=
  match o with
  | Outcome.responded _ (some line) => appendFile fs (logFileName cfg) line
  | _ => fs

/-- Sequential processing of a request list (the reference server is
single-threaded: one request at a time). -/
def processRequests (cfg : Config) : List Request → Files → Files
  | [], fs => fs
  | r :: rest, fs => processRequests cfg rest (applyOutcome cfg (handleRequest cfg r) fs)

theorem lookupFile_appendFile_self (fs : Files) (name : String) (line : List Char) :
    lookupFile (appendFile fs name line) name = lookupFile fs name ++ line := by
  induction fs with
  | nil => simp [appendFile, lookupFile]
  | cons p rest ih =>
    obtain ⟨n, c⟩ := p
    by_cases h : n = name
    · simp [appendFile, lookupFile, h]
    · simp [appendFile, lookupFile, h, ih]

theorem lookupFile_appendFile_other (fs : Files) {name other : String}
    (h : other ≠ name) (line : List Char) :
    lookupFile (appendFile fs name line) other = lookupFile fs other := by
  induction fs with
  | nil =>
    simp only [appendFile, lookupFile]
    rw [if_neg (fun hh : name = other => h hh.symm)]
  | cons p rest ih =>
    obtain ⟨n, c⟩ := p
    by_cases hn : n = name
    · subst hn
      simp only [appendFile, if_pos rfl, lookupFile]
      rw [if_neg (fun hh : n = other => h hh.symm), if_neg (fun hh : n = other => h hh.symm)]
    · simp [appendFile, lookupFile, hn, ih]

/-- Success characterization of the `try` block on an object body: the
formatted line combines the display timestamp, the `str`-rendered `type`
value (default `'UNKNOWN'`) and the `json.dumps` re-serialization. -/
theorem tryBlock_ok_of {cfg : Config} {entry : List (String × Json)} {ms : Int}
    {ts : List Char}
    (hnum : pyNum ((lookupKey entry "timestamp").getD (Json.num 0)) = some ms)
    (hts : fromtimestampStr cfg.tzOffsetSec ms = Except.ok ts) :
    tryBlock cfg (some (Json.obj entry)) =
      Except.ok (formatLine ts
        (pyStr ((lookupKey entry "type").getD (Json.str "UNKNOWN")))
        (dumps (Json.obj entry))) := by
  simp only [tryBlock, dictGet, hnum, hts]

/-- Inversion of a successful `try` block: the body must have been a
JSON object with a numeric (or boolean, or absent) timestamp in
`datetime` range, and the line has the `[ts] [type] dumps` shape. -/
theorem tryBlock_ok_inv {cfg : Config} {body : Option Json} {line : List Char}
    (h : tryBlock cfg body = Except.ok line) :
    ∃ entry ms ts, body = some (Json.obj entry) ∧
      pyNum ((lookupKey entry "timestamp").getD (Json.num 0)) = some ms ∧
      fromtimestampStr cfg.tzOffsetSec ms = Except.ok ts ∧
      line = formatLine ts
        (pyStr ((lookupKey entry "type").getD (Json.str "UNKNOWN")))
        (dumps (Json.obj entry)) := by
  cases body with
  | none => exact absurd h (by simp [tryBlock])
  | some entry =>
    cases entry with
    | null => exact absurd h (by simp [tryBlock, dictGet])
    | bool b => exact absurd h (by simp [tryBlock, dictGet])
    | num n => exact absurd h (by simp [tryBlock, dictGet])
    | str s => exact absurd h (by simp [tryBlock, dictGet])
    | arr xs => exact absurd h (by simp [tryBlock, dictGet])
    | obj members =>
      simp only [tryBlock, dictGet] at h
      cases hnum : pyNum ((lookupKey members "timestamp").getD (Json.num 0)) with
      | none => rw [hnum] at h; exact absurd h (by simp)
      | some m =>
        rw [hnum] at h
        simp only at h
        cases hts : fromtimestampStr cfg.tzOffsetSec m with
        | error e => rw [hts] at h; exact absurd h (by simp)
        | ok ts =>
          rw [hts] at h
          simp only at h
          exact ⟨members, m, ts, rfl, hnum, hts, ((Except.ok.injEq _ _).mp h).symm⟩

/-- A formatted line whose timestamp, type and serialization parts are
newline-free contains exactly one newline: its final one. -/
theorem countChar_formatLine {ts ty ser : List Char}
    (h1 : nl ∉ ts) (h2 : nl ∉ ty) (h3 : nl ∉ ser) :
    countChar nl (formatLine ts ty ser) = 1 := by
  simp [formatLine, countChar_append, countChar, countChar_eq_zero h1,
    countChar_eq_zero h2, countChar_eq_zero h3]
  decide

theorem processRequests_nil (cfg : Config) (fs : Files) :
    processRequests cfg [] fs = fs := rfl

theorem processRequests_cons (cfg : Config) (r : Request) (rest : List Request)
    (fs : Files) :
    processRequests cfg (r :: rest) fs
      = processRequests cfg rest (applyOutcome cfg (handleRequest cfg r) fs) := rfl

/-- Files other than the startup-cached `LOG_FILE` are never touched,
whatever requests arrive. -/
theorem processRequests_other (cfg : Config) (reqs : List Request) (fs : Files)
    {name : String} (h : name ≠ logFileName cfg) :
    lookupFile (processRequests cfg reqs fs) name = lookupFile fs name := by
  induction reqs generalizing fs with
  | nil => rfl
  | cons r rest ih =>
    rw [processRequests_cons]
    rw [ih (applyOutcome cfg (handleRequest cfg r) fs)]
    unfold applyOutcome
    cases handleRequest cfg r with
    | crashed => rfl
    | responded resp w =>
      cases w with
      | none => rfl
      | some line => exact lookupFile_appendFile_other fs h line

/-- The startup-cached `LOG_FILE` only ever grows by appending. -/
theorem processRequests_appendOnly (cfg : Config) (reqs : List Request) (fs : Files) :
    ∃ suffix, lookupFile (processRequests cfg reqs fs) (logFileName cfg)
      = lookupFile fs (logFileName cfg) ++ suffix := by
  induction reqs generalizing fs with
  | nil => exact ⟨[], by rw [processRequests_nil, List.append_nil]⟩
  | cons r rest ih =>
    rw [processRequests_cons]
    cases ho : handleRequest cfg r with
    | crashed =>
      exact ih fs
    | responded resp w =>
      cases w with
      | none => exact ih fs
      | some line =>
        obtain ⟨suf, hsuf⟩ := ih (appendFile fs (logFileName cfg) line)
        refine ⟨line ++ suf, ?_⟩
        show lookupFile (processRequests cfg rest (appendFile fs (logFileName cfg) line))
            (logFileName cfg) = _
        rw [hsuf, lookupFile_appendFile_self, List.append_assoc]

/-! ### The claims -/

/-- A concrete startup configuration for witnesses: UTC timezone, started
on 2025-06-01 (so `LOG_FILE` is `logs/lorafactory_20250601.log`). -/
def cfg0 : Config := ⟨0, 2025, 6, 1⟩

/-- Claim C1 (counterexample): `[]` is a valid JSON body, posted with a
correct `Content-Length`, yet the response is 500 with nothing written —
`log_entry.get` raises `AttributeError` on a non-dict — so the claim's
"every valid JSON body gets 200" is false as stated. -/
theorem C1_counterexample :
    handleRequest cfg0 ⟨"POST", "/log", some 2, false, some (Json.arr []), 2025, 6, 1⟩
        = Outcome.responded resp500 none
      ∧ resp500.status ≠ 200 :=
  ⟨rfl, by decide⟩

/-- Claim C1 (amended): for every POST to `/log` whose `Content-Length`
is a readable integer, whose body parses to a JSON object (with unique
keys, as `json.loads` produces) whose `timestamp` is absent, numeric or
boolean and lands in `datetime`'s representable range, and whose rendered
`type` value contains no newline, the server responds 200 with headers
`Access-Control-Allow-Origin: *` and `Content-Type: application/json` and
body `{"status":"ok"}`, and the log file gains exactly one new line whose
content ends with the compact `json.dumps` re-serialization of the body. -/
theorem C1_success_theorem (cfg : Config) (req : Request)
    (entry : List (String × Json)) (n ms : Int) (ts : List Char)
    (hkeys : (entry.map Prod.fst).Nodup)
    (hm : req.method = "POST") (hp : req.path = "/log")
    (hcl : req.contentLength = some n) (hr : req.bodyReadFails = false)
    (hb : req.body = some (Json.obj entry))
    (hnum : pyNum ((lookupKey entry "timestamp").getD (Json.num 0)) = some ms)
    (hts : fromtimestampStr cfg.tzOffsetSec ms = Except.ok ts)
    (hty : nl ∉ pyStr ((lookupKey entry "type").getD (Json.str "UNKNOWN"))) :
    ∃ rec pre, handleRequest cfg req = Outcome.responded ok200 (some rec) ∧
      rec = pre ++ dumps (Json.obj entry) ++ [nl] ∧
      countChar nl rec = 1 ∧
      ∀ fs : Files, lookupFile (processRequests cfg [req] fs) (logFileName cfg)
        = lookupFile fs (logFileName cfg) ++ rec := by
  have htry := tryBlock_ok_of hnum hts
  have hh : handleRequest cfg req = Outcome.responded ok200
      (some (formatLine ts (pyStr ((lookupKey entry "type").getD (Json.str "UNKNOWN")))
        (dumps (Json.obj entry)))) := by
    simp [handleRequest, do_POST, hm, hp, hcl, hr, hb, htry]
  refine ⟨_, ['['] ++ ts ++ [']', ' ', '['] ++
      pyStr ((lookupKey entry "type").getD (Json.str "UNKNOWN")) ++ [']', ' '],
    hh, rfl, countChar_formatLine (fromtimestampStr_no_nl hts) hty (nl_not_mem_dumps _), ?_⟩
  intro fs
  rw [processRequests_cons, processRequests_nil, hh]
  show lookupFile (appendFile fs (logFileName cfg) _) (logFileName cfg) = _
  exact lookupFile_appendFile_self fs _ _

/-- Claim C1 (witness): the spec's own concrete scenario, at UTC. -/
theorem C1_witness :
    ∃ rec pre, handleRequest cfg0 ⟨"POST", "/log", some 33, false,
        some (Json.obj [("timestamp", Json.num 1700000000000), ("type", Json.str "INFO")]),
        2025, 6, 1⟩ = Outcome.responded ok200 (some rec) ∧
      rec = pre ++ dumps (Json.obj
        [("timestamp", Json.num 1700000000000), ("type", Json.str "INFO")]) ++ [nl] ∧
      countChar nl rec = 1 ∧
      ∀ fs : Files, lookupFile (processRequests cfg0 [⟨"POST", "/log", some 33, false,
          some (Json.obj [("timestamp", Json.num 1700000000000), ("type", Json.str "INFO")]),
          2025, 6, 1⟩] fs) (logFileName cfg0)
        = lookupFile fs (logFileName cfg0) ++ rec :=
  C1_success_theorem cfg0 _ [("timestamp", Json.num 1700000000000), ("type", Json.str "INFO")]
    33 1700000000000 ("2023-11-14 22:13:20.000".data)
    (by decide) rfl rfl rfl rfl rfl rfl rfl (by decide)

/-- Claim C2 (counterexample): with the `Content-Length` header missing,
`int(self.headers['Content-Length'])` raises *outside* the
`try`/`except` (source line 22), the exception escapes the handler and
the connection is closed with no response at all — not an HTTP 500. -/
theorem C2_counterexample :
    handleRequest cfg0 ⟨"POST", "/log", none, false, some Json.null, 2025, 6, 1⟩
        = Outcome.crashed
      ∧ Outcome.crashed ≠ Outcome.responded resp500 none :=
  ⟨rfl, by decide⟩

/-- Claim C2 (amended): an exception raised inside the `try` block
(invalid JSON, non-object body, bad timestamp, ...) is reported on the
operator console and answered with a bare 500 and no write; but a
missing or non-integer `Content-Length` header, or a body-read failure,
raises before the `try` block, so no response is sent at all (the stack
prints a traceback and drops the connection) — still with no write. -/
theorem C2_error_theorem :
    (∀ (cfg : Config) (req : Request) (fs : Files), req.method = "POST" →
       req.path = "/log" → req.contentLength.isSome = true →
       req.bodyReadFails = false → tryBlock cfg req.body = Except.error () →
       handleRequest cfg req = Outcome.responded resp500 none ∧
       processRequests cfg [req] fs = fs) ∧
    (∀ (cfg : Config) (req : Request) (fs : Files), req.method = "POST" →
       req.path = "/log" →
       (req.contentLength = none ∨ req.bodyReadFails = true) →
       handleRequest cfg req = Outcome.crashed ∧
       processRequests cfg [req] fs = fs) := by
  constructor
  · intro cfg req fs hm hp hcl hr htry
    obtain ⟨n, hn⟩ := Option.isSome_iff_exists.mp hcl
    have hh : handleRequest cfg req = Outcome.responded resp500 none := by
      simp [handleRequest, do_POST, hm, hp, hn, hr, htry]
    exact ⟨hh, by simp [processRequests_cons, processRequests_nil, applyOutcome, hh]⟩
  · intro cfg req fs hm hp hcrash
    have hh : handleRequest cfg req = Outcome.crashed := by
      rcases hcrash with hcl | hr
      · simp [handleRequest, do_POST, hm, hp, hcl]
      · cases hcl : req.contentLength with
        | none => simp [handleRequest, do_POST, hm, hp, hcl]
        | some n => simp [handleRequest, do_POST, hm, hp, hcl, hr]
    exact ⟨hh, by simp [processRequests_cons, processRequests_nil, applyOutcome, hh]⟩

/-- Claim C2 (witness): a body that is not valid JSON yields a bare 500
and leaves the file system untouched. -/
theorem C2_witness :
    handleRequest cfg0 ⟨"POST", "/log", some 8, false, none, 2025, 6, 1⟩
        = Outcome.responded resp500 none ∧
      processRequests cfg0 [⟨"POST", "/log", some 8, false, none, 2025, 6, 1⟩] [] = [] :=
  C2_error_theorem.1 cfg0 ⟨"POST", "/log", some 8, false, none, 2025, 6, 1⟩ [] rfl rfl rfl
    rfl rfl

/-- Claim C3 (counterexample): a GET to another path is answered 501
(Unsupported method) by `BaseHTTPRequestHandler` — `LogHandler` defines
no `do_GET` — not 404 as the claim states for every method. -/
theorem C3_counterexample :
    handleRequest cfg0 ⟨"GET", "/other", none, false, none, 2025, 6, 1⟩
        = Outcome.responded resp501 none
      ∧ resp501.status ≠ 404 :=
  ⟨rfl, by decide⟩

/-- Claim C3 (amended): a POST to any path other than `/log` gets 404
with no body; an OPTIONS request to any path gets 200 with the CORS
headers; any other method gets the framework's 501 Unsupported-method
reply, not 404. -/
theorem C3_routing_theorem :
    (∀ (cfg : Config) (req : Request), req.method = "POST" → req.path ≠ "/log" →
       handleRequest cfg req = Outcome.responded resp404 none) ∧
    (∀ (cfg : Config) (req : Request), req.method = "OPTIONS" →
       handleRequest cfg req = Outcome.responded corsResp none) ∧
    (∀ (cfg : Config) (req : Request), req.method ≠ "POST" → req.method ≠ "OPTIONS" →
       handleRequest cfg req = Outcome.responded resp501 none) := by
  refine ⟨?_, ?_, ?_⟩
  · intro cfg req hm hp
    simp [handleRequest, do_POST, hm, hp]
  · intro cfg req hm
    simp [handleRequest, hm]
  · intro cfg req hm1 hm2
    simp [handleRequest, hm1, hm2]

/-- Claim C3 (witness): POST to an unknown path receives 404. -/
theorem C3_witness :
    handleRequest cfg0 ⟨"POST", "/nope", none, false, none, 2025, 6, 1⟩
      = Outcome.responded resp404 none :=
  C3_routing_theorem.1 cfg0 ⟨"POST", "/nope", none, false, none, 2025, 6, 1⟩ rfl (by decide)

/-- Claim C4: whenever the display-timestamp pipeline of source line 29
succeeds, it renders exactly the spec's reading — epoch milliseconds
converted to local wall-clock time, `YYYY-MM-DD HH:MM:SS.mmm` with the
millisecond field truncated, not rounded — and a timestamp of 0 renders
as the epoch instant in local time with fractional part `.000`. -/
theorem C4_timestamp_theorem (tz ms : Int) (s : List Char)
    (h : fromtimestampStr tz ms = Except.ok s) :
    s = specDisplayTimestamp tz ms ∧ (ms = 0 → s = epochLocalDisplay tz) := by
  have h1 := fromtimestampStr_spec h
  refine ⟨h1, ?_⟩
  intro h0
  subst h0
  rw [h1]
  unfold specDisplayTimestamp epochLocalDisplay
  have e1 : ((0 : Int) + tz * 1000) / 1000 = tz := by omega
  have e2 : (((0 : Int) + tz * 1000) % 1000).toNat = 0 := by omega
  rw [e1, e2]
  have e3 : padNumL 3 0 = ['0', '0', '0'] := by decide
  rw [e3]

/-- Claim C4 (witness): at offset UTC+1 a timestamp of 0 renders as
`1970-01-01 01:00:00.000`. -/
theorem C4_witness :
    fromtimestampStr 3600 0 = Except.ok ("1970-01-01 01:00:00.000".data) ∧
      ("1970-01-01 01:00:00.000".data = specDisplayTimestamp 3600 0 ∧
        ((0 : Int) = 0 → "1970-01-01 01:00:00.000".data = epochLocalDisplay 3600)) :=
  ⟨rfl, C4_timestamp_theorem 3600 0 ("1970-01-01 01:00:00.000".data) rfl⟩

/-- Claim C5: an accepted event without a `type` key is formatted with
the `UNKNOWN` label, and one without a `timestamp` key is formatted with
the timestamp defaulted to 0 (the epoch). -/
theorem C5_defaults_theorem :
    (∀ (cfg : Config) (entry : List (String × Json)) (ms : Int) (ts : List Char),
       (entry.map Prod.fst).Nodup →
       lookupKey entry "type" = none →
       pyNum ((lookupKey entry "timestamp").getD (Json.num 0)) = some ms →
       fromtimestampStr cfg.tzOffsetSec ms = Except.ok ts →
       tryBlock cfg (some (Json.obj entry)) =
         Except.ok (formatLine ts ("UNKNOWN".data) (dumps (Json.obj entry)))) ∧
    (∀ (cfg : Config) (entry : List (String × Json)) (ts : List Char),
       (entry.map Prod.fst).Nodup →
       lookupKey entry "timestamp" = none →
       fromtimestampStr cfg.tzOffsetSec 0 = Except.ok ts →
       tryBlock cfg (some (Json.obj entry)) =
         Except.ok (formatLine ts
           (pyStr ((lookupKey entry "type").getD (Json.str "UNKNOWN")))
           (dumps (Json.obj entry)))) := by
  constructor
  · intro cfg entry ms ts hnd hty hnum hts
    rw [tryBlock_ok_of hnum hts, hty]
    rfl
  · intro cfg entry ts hnd hts0 hts
    have hnum : pyNum ((lookupKey entry "timestamp").getD (Json.num 0)) = some 0 := by
      rw [hts0]; rfl
    exact tryBlock_ok_of hnum hts

/-- Claim C5 (witness): a payload with neither `timestamp` nor `type`
formats with the `UNKNOWN` label and the epoch timestamp. -/
theorem C5_witness :
    tryBlock cfg0 (some (Json.obj [("msg", Json.str "hi")])) =
      Except.ok (formatLine ("1970-01-01 00:00:00.000".data) ("UNKNOWN".data)
        (dumps (Json.obj [("msg", Json.str "hi")]))) :=
  C5_defaults_theorem.1 cfg0 [("msg", Json.str "hi")] 0 ("1970-01-01 00:00:00.000".data)
    (by decide) rfl rfl rfl

/-- Claim C6: during one process lifetime every accepted event is
appended to the single `LOG_FILE` computed from the startup date; no
other file is ever written, whatever the wall-clock dates of the handled
requests (no rollover past midnight). -/
theorem C6_single_file_theorem :
    (∀ (cfg : Config) (reqs : List Request) (fs : Files) (name : String),
       name ≠ logFileName cfg →
       lookupFile (processRequests cfg reqs fs) name = lookupFile fs name) ∧
    (∀ (cfg : Config) (reqs : List Request) (fs : Files),
       ∃ suffix, lookupFile (processRequests cfg reqs fs) (logFileName cfg)
         = lookupFile fs (logFileName cfg) ++ suffix) :=
  ⟨fun cfg reqs fs _ h => processRequests_other cfg reqs fs h,
   fun cfg reqs fs => processRequests_appendOnly cfg reqs fs⟩

/-- Claim C6 (witness): a request handled on 2026-01-01, after the
process started on 2025-06-01, does not touch the file named for its own
date — only the startup-dated `LOG_FILE` is ever written. -/
theorem C6_witness :
    lookupFile (processRequests cfg0
        [⟨"POST", "/log", some 2, false, some (Json.obj []), 2026, 1, 1⟩] [])
        "logs/lorafactory_20260101.log"
      = lookupFile [] "logs/lorafactory_20260101.log" :=
  C6_single_file_theorem.1 cfg0
    [⟨"POST", "/log", some 2, false, some (Json.obj []), 2026, 1, 1⟩] []
    "logs/lorafactory_20260101.log" (by decide)

/-- Claim C7: two sequential accepted POSTs append their two lines to the
log file in submission order. -/
theorem C7_order_theorem (cfg : Config) (r1 r2 : Request) (l1 l2 : List Char)
    (fs : Files)
    (h1 : handleRequest cfg r1 = Outcome.responded ok200 (some l1))
    (h2 : handleRequest cfg r2 = Outcome.responded ok200 (some l2)) :
    lookupFile (processRequests cfg [r1, r2] fs) (logFileName cfg)
      = lookupFile fs (logFileName cfg) ++ l1 ++ l2 := by
  rw [processRequests_cons, processRequests_cons, processRequests_nil, h1, h2]
  show lookupFile (appendFile (appendFile fs (logFileName cfg) l1) (logFileName cfg) l2)
      (logFileName cfg) = _
  rw [lookupFile_appendFile_self, lookupFile_appendFile_self]

/-- Claim C7 (witness): two concrete accepted POSTs, in order. -/
theorem C7_witness :
    lookupFile (processRequests cfg0
        [⟨"POST", "/log", some 15, false, some (Json.obj [("type", Json.str "ONE")]),
            2025, 6, 1⟩,
         ⟨"POST", "/log", some 15, false, some (Json.obj [("type", Json.str "TWO")]),
            2025, 6, 1⟩] []) (logFileName cfg0)
      = lookupFile [] (logFileName cfg0)
          ++ ("[1970-01-01 00:00:00.000] [ONE] \x7b\"type\": \"ONE\"\x7d\n".data)
          ++ ("[1970-01-01 00:00:00.000] [TWO] \x7b\"type\": \"TWO\"\x7d\n".data) :=
  C7_order_theorem cfg0
    ⟨"POST", "/log", some 15, false, some (Json.obj [("type", Json.str "ONE")]), 2025, 6, 1⟩
    ⟨"POST", "/log", some 15, false, some (Json.obj [("type", Json.str "TWO")]), 2025, 6, 1⟩
    ("[1970-01-01 00:00:00.000] [ONE] \x7b\"type\": \"ONE\"\x7d\n".data)
    ("[1970-01-01 00:00:00.000] [TWO] \x7b\"type\": \"TWO\"\x7d\n".data)
    [] rfl rfl

/-- Claim C8: every OPTIONS request, to `/log` or any other path, gets
HTTP 200 with an empty body and exactly the three CORS headers the
handler sends (`do_OPTIONS`, source lines 51-57), and nothing is written
to the log.  (The HTTP stack's automatic `Server`/`Date` headers are
outside the handler and not modelled.) -/
theorem C8_options_theorem (cfg : Config) (req : Request)
    (h : req.method = "OPTIONS") :
    handleRequest cfg req = Outcome.responded
      ⟨200, [("Access-Control-Allow-Origin", "*"),
             ("Access-Control-Allow-Methods", "POST, OPTIONS"),
             ("Access-Control-Allow-Headers", "Content-Type")], ""⟩ none := by
  simp [handleRequest, h]
  rfl

/-- Claim C8 (witness): an OPTIONS preflight to an arbitrary path. -/
theorem C8_witness :
    handleRequest cfg0 ⟨"OPTIONS", "/anything", none, false, none, 2025, 6, 1⟩
      = Outcome.responded
        ⟨200, [("Access-Control-Allow-Origin", "*"),
               ("Access-Control-Allow-Methods", "POST, OPTIONS"),
               ("Access-Control-Allow-Headers", "Content-Type")], ""⟩ none :=
  C8_options_theorem cfg0 ⟨"OPTIONS", "/anything", none, false, none, 2025, 6, 1⟩ rfl

/-- Claim C9 (counterexample): `{"timestamp": true}` has a non-numeric
(boolean) timestamp, yet Python's `True / 1000` succeeds (bool is an int
subclass, dividing as 1), so the event is accepted with 200 and written,
against the claim's "responds 500 and the log gains no line". -/
theorem C9_counterexample :
    handleRequest cfg0 ⟨"POST", "/log", some 19, false,
        some (Json.obj [("timestamp", Json.bool true)]), 2025, 6, 1⟩
      = Outcome.responded ok200
          (some ("[1970-01-01 00:00:00.001] [UNKNOWN] \x7b\"timestamp\": true\x7d\n".data))
      ∧ ok200.status ≠ 500 :=
  ⟨rfl, by decide⟩

/-- Claim C9 (amended): a valid-JSON body that is not an object (array,
string, number, boolean or null) is answered 500 with no write (the
`.get` attribute access raises first); an object whose `timestamp` value
is null, a string, an array or an object is likewise answered 500 with
no write (the division raises `TypeError`) — but JSON booleans are
accepted, dividing as the integers 1/0. -/
theorem C9_nonobject_theorem :
    (∀ (cfg : Config) (req : Request) (j : Json) (fs : Files),
       req.method = "POST" → req.path = "/log" →
       req.contentLength.isSome = true → req.bodyReadFails = false →
       req.body = some j → (∀ ms_, j ≠ Json.obj ms_) →
       handleRequest cfg req = Outcome.responded resp500 none ∧
       processRequests cfg [req] fs = fs) ∧
    (∀ (cfg : Config) (req : Request) (entry : List (String × Json)) (v : Json)
       (fs : Files),
       (entry.map Prod.fst).Nodup →
       req.method = "POST" → req.path = "/log" →
       req.contentLength.isSome = true → req.bodyReadFails = false →
       req.body = some (Json.obj entry) →
       lookupKey entry "timestamp" = some v → pyNum v = none →
       handleRequest cfg req = Outcome.responded resp500 none ∧
       processRequests cfg [req] fs = fs) := by
  constructor
  · intro cfg req j fs hm hp hcl hr hb hobj
    obtain ⟨n, hn⟩ := Option.isSome_iff_exists.mp hcl
    have htry : tryBlock cfg (some j) = Except.error () := by
      cases j with
      | obj ms_ => exact absurd rfl (hobj ms_)
      | null => rfl
      | bool b => rfl
      | num m => rfl
      | str s => rfl
      | arr xs => rfl
    have hh : handleRequest cfg req = Outcome.responded resp500 none := by
      simp [handleRequest, do_POST, hm, hp, hn, hr, hb, htry]
    exact ⟨hh, by simp [processRequests_cons, processRequests_nil, applyOutcome, hh]⟩
  · intro cfg req entry v fs hnd hm hp hcl hr hb hk hv
    obtain ⟨n, hn⟩ := Option.isSome_iff_exists.mp hcl
    have htry : tryBlock cfg (some (Json.obj entry)) = Except.error () := by
      simp only [tryBlock, dictGet, hk, Option.getD_some, hv]
    have hh : handleRequest cfg req = Outcome.responded resp500 none := by
      simp [handleRequest, do_POST, hm, hp, hn, hr, hb, htry]
    exact ⟨hh, by simp [processRequests_cons, processRequests_nil, applyOutcome, hh]⟩

/-- Claim C9 (witness): a valid JSON string body is answered 500 with no
write. -/
theorem C9_witness :
    handleRequest cfg0 ⟨"POST", "/log", some 3, false, some (Json.str "x"), 2025, 6, 1⟩
        = Outcome.responded resp500 none ∧
      processRequests cfg0
        [⟨"POST", "/log", some 3, false, some (Json.str "x"), 2025, 6, 1⟩] [] = [] :=
  C9_nonobject_theorem.1 cfg0
    ⟨"POST", "/log", some 3, false, some (Json.str "x"), 2025, 6, 1⟩ (Json.str "x") []
    rfl rfl rfl rfl rfl (fun ms_ h => Json.noConfusion h)

/-- Claim C10: for every accepted event whose `type` value is a JSON
string, the f-string interpolation puts that string into the log line
verbatim (unescaped), and consequently the concrete accepted body
`{"type": "A\nB"}` produces a single appended record containing two
newline characters — it spans more than one physical line of the file
(while the `json.dumps` part keeps the newline escaped). -/
theorem C10_verbatim_theorem :
    (∀ (cfg : Config) (entry : List (String × Json)) (s : String) (line : List Char),
       (entry.map Prod.fst).Nodup →
       lookupKey entry "type" = some (Json.str s) →
       tryBlock cfg (some (Json.obj entry)) = Except.ok line →
       ∃ pre suf, line = pre ++ s.data ++ suf) ∧
    (handleRequest cfg0 ⟨"POST", "/log", some 17, false,
          some (Json.obj [("type", Json.str "A\nB")]), 2025, 6, 1⟩
        = Outcome.responded ok200
            (some ("[1970-01-01 00:00:00.000] [A\nB] \x7b\"type\": \"A\\nB\"\x7d\n".data))
      ∧ countChar nl
          ("[1970-01-01 00:00:00.000] [A\nB] \x7b\"type\": \"A\\nB\"\x7d\n".data) = 2) := by
  constructor
  · intro cfg entry s line hnd hk htry
    obtain ⟨entry2, ms, ts, heq, hnum, hts, hline⟩ := tryBlock_ok_inv htry
    have he : entry2 = entry := by
      injection heq with h
      injection h with h2
      exact h2.symm
    subst he
    rw [hline, hk]
    refine ⟨['['] ++ ts ++ [']', ' ', '['], [']', ' '] ++ dumps (Json.obj entry2) ++ [nl], ?_⟩
    simp [formatLine, pyStr, List.append_assoc]
  · exact ⟨rfl, by decide⟩

/-- Claim C10 (witness): the type string `A\nB` appears verbatim inside
the accepted line. -/
theorem C10_witness :
    ∃ pre suf, ("[1970-01-01 00:00:00.000] [A\nB] \x7b\"type\": \"A\\nB\"\x7d\n".data)
      = pre ++ ("A\nB").data ++ suf :=
  C10_verbatim_theorem.1 cfg0 [("type", Json.str "A\nB")] "A\nB"
    ("[1970-01-01 00:00:00.000] [A\nB] \x7b\"type\": \"A\\nB\"\x7d\n".data)
    (by decide) rfl rfl

end LogServer
